import Mathlib

/-!
# 3D model viewer: normalisation, camera fit, zoom animation and UI state

A shallow embedding of `src/src/App.jsx`.

* Numbers are elements of a linearly ordered field `K` (exact arithmetic); every
  definition is computable and can be evaluated at `K = ℚ`.  The camera distance is
  stated at `K = ℝ` with `Math.tan` and `Math.PI` passed in as parameters.
* A division whose divisor is a variable is `jsDiv`, which has no finite result when
  the divisor is zero (JavaScript yields `Infinity` or `NaN` there).
* The scene group, the pending decodes and the pending timer callbacks are explicit
  state, changed by one function per event.
-/

namespace ModelViewer

/-! ## Vectors and boxes (the operations of three.js used by the source) -/

/-- A `THREE.Vector3`. -/
structure Vector3 (K : Type) where
  x : K
  y : K
  z : K
deriving DecidableEq, Repr

/-- An axis-aligned box, `THREE.Box3`.  `empty` is the box produced by `makeEmpty`
(bounds `+Infinity` and `-Infinity`), which contains no point. -/
inductive Box3 (K : Type) where
  | empty : Box3 K
  | box (min max : Vector3 K) : Box3 K
deriving DecidableEq, Repr

section Arithmetic

variable {K : Type} [LinearOrderedField K]

/-- The quotient `a / b` of two numbers: a finite value when the divisor is not zero,
and no finite value (`Infinity` or `NaN` in JavaScript) when it is zero. -/
def jsDiv (a b : K) : Option K :=
  if b = 0 then none else some (a / b)

/-- `Vector3.set(x, y, z)` on a fresh vector. -/
def Vector3.set (x y z : K) : Vector3 K := ⟨x, y, z⟩

/-- `Vector3.setScalar(s)`: all three components become `s`. -/
def Vector3.setScalar (s : K) : Vector3 K := ⟨s, s, s⟩

/-- `Vector3.sub(v)`: componentwise difference. -/
def Vector3.sub (a v : Vector3 K) : Vector3 K := ⟨a.x - v.x, a.y - v.y, a.z - v.z⟩

/-- `Vector3.addVectors(a, b)`: componentwise sum. -/
def Vector3.addVectors (a b : Vector3 K) : Vector3 K := ⟨a.x + b.x, a.y + b.y, a.z + b.z⟩

/-- `Vector3.subVectors(a, b)`: componentwise difference. -/
def Vector3.subVectors (a b : Vector3 K) : Vector3 K := ⟨a.x - b.x, a.y - b.y, a.z - b.z⟩

/-- `Vector3.multiplyScalar(s)`. -/
def Vector3.multiplyScalar (a : Vector3 K) (s : K) : Vector3 K := ⟨a.x * s, a.y * s, a.z * s⟩

/-- `Vector3.min(v)`: componentwise minimum. -/
def Vector3.min (a v : Vector3 K) : Vector3 K :=
  ⟨Min.min a.x v.x, Min.min a.y v.y, Min.min a.z v.z⟩

/-- `Vector3.max(v)`: componentwise maximum. -/
def Vector3.max (a v : Vector3 K) : Vector3 K :=
  ⟨Max.max a.x v.x, Max.max a.y v.y, Max.max a.z v.z⟩

/-- `Box3.isEmpty()`: true when the box contains no point. -/
def Box3.isEmpty : Box3 K → Bool
  | .empty => true
  | .box mn mx => decide (mx.x < mn.x) || decide (mx.y < mn.y) || decide (mx.z < mn.z)

/-- `Box3.expandByPoint(p)`: the smallest box containing the box and `p`. -/
def Box3.expandByPoint : Box3 K → Vector3 K → Box3 K
  | .empty, p => .box p p
  | .box mn mx, p => .box (mn.min p) (mx.max p)

/-- `Box3.setFromPoints(points)`: start from the empty box and expand by every point. -/
def Box3.setFromPoints (points : List (Vector3 K)) : Box3 K :=
  points.foldl Box3.expandByPoint Box3.empty

/-- `Box3.getCenter(target)`: the midpoint of the box, `(0,0,0)` for an empty box. -/
def Box3.getCenter : Box3 K → Vector3 K
  | .empty => Vector3.set 0 0 0
  | .box mn mx =>
    if (Box3.box mn mx).isEmpty then Vector3.set 0 0 0
    else (Vector3.addVectors mn mx).multiplyScalar (1 / 2)

/-- `Box3.getSize(target)`: the extent of the box, `(0,0,0)` for an empty box. -/
def Box3.getSize : Box3 K → Vector3 K
  | .empty => Vector3.set 0 0 0
  | .box mn mx =>
    if (Box3.box mn mx).isEmpty then Vector3.set 0 0 0
    else Vector3.subVectors mx mn

/-- The root of a decoded asset: its position and scale (the rotation is the identity
and the parent group is untransformed) and the points of its geometry in local
coordinates. -/
structure Object3D (K : Type) where
  position : Vector3 K
  scale : Vector3 K
  geometry : List (Vector3 K)
deriving DecidableEq, Repr

/-- World position of the local point `p` of the object: `position + scale * p`. -/
def Object3D.localToWorld (o : Object3D K) (p : Vector3 K) : Vector3 K :=
  ⟨o.position.x + o.scale.x * p.x, o.position.y + o.scale.y * p.y,
   o.position.z + o.scale.z * p.z⟩

/-- `Box3.setFromObject(object)`: the world-space bounding box of the object. -/
def Box3.setFromObject (o : Object3D K) : Box3 K :=
  Box3.setFromPoints (o.geometry.map o.localToWorld)

/-- The image of a box under the placement of an object: both corners are mapped by
`localToWorld`.  Used to relate the bounding box of the placed geometry to the
bounding box of the geometry. -/
def Box3.placedBy (o : Object3D K) : Box3 K → Box3 K
  | .empty => .empty
  | .box mn mx => .box (o.localToWorld mn) (o.localToWorld mx)

/-- A freshly decoded root: position 0 and scale 1 (the identity transform). -/
def Object3D.decoded (geometry : List (Vector3 K)) : Object3D K :=
  { position := Vector3.set 0 0 0, scale := Vector3.setScalar 1, geometry := geometry }

/-! ## `UploadedModel`: the load callback (lines 18-41) -/

/-- The constant `maxSize` of line 27: the target longest dimension. -/
def maxSize : K := 2

/-- Line 28: `Math.max(size.x, size.y, size.z)`. -/
def maxDim (size : Vector3 K) : K := Max.max (Max.max size.x size.y) size.z

/-- Line 29: `scaleFactor = maxSize / maxDim`, with no guard on the divisor. -/
def scaleFactor (size : Vector3 K) : Option K := jsDiv maxSize (maxDim size)

/-- Lines 19-30 of the load callback: measure the bounding box of the root, subtract
the centre of the box from the position, then set the scale to `maxSize / maxDim` on
all three axes.  The result is `none` when the scale factor is not a finite number. -/
def normalize (scene : Object3D K) : Option (Object3D K) :=
  let box := Box3.setFromObject scene
  let center := box.getCenter
  let size := box.getSize
  let position := scene.position.sub center
  (scaleFactor size).map fun f =>
    { scene with position := position, scale := Vector3.setScalar f }

/-- Lines 36-37: `fov = camera.fov * (Math.PI / 180)` and
`distance = (maxSize / 2 / Math.tan(fov / 2)) * 1.4`.  `Math.tan` and `Math.PI` are
parameters. -/
def cameraDistance (tan : K → K) (pi : K) (cameraFov : K) : Option K :=
  let fov := cameraFov * (pi / 180)
  (jsDiv (maxSize / 2) (tan (fov / 2))).map fun q => q * 1.4

/-! ## `zoom`: the camera animation (lines 38-53) -/

/-- The variables the animation changes: the interpolation parameter `p`, the camera
`z` coordinate, and whether a call of `zoom` is pending (the direct call of line 53 or
a callback registered by `requestAnimationFrame`). -/
structure ZoomState (K : Type) where
  p : K
  cameraZ : K
  scheduled : Bool
deriving DecidableEq, Repr

/-- Lines 38-44 and 53: the camera is put at `startZ`, `p` is 0 and `zoom` is called.
The calls `controls.target.set`, `controls.update` and `camera.lookAt` are taken to
leave `p` and `camera.position.z` as they are. -/
def zoomInit (startZ : K) : ZoomState K :=
  { p := 0, cameraZ := startZ, scheduled := true }

/-- One call of `zoom` (lines 45-52). -/
def zoom (startZ distance : K) (s : ZoomState K) : ZoomState K :=
  if s.p ≥ 1 then { s with scheduled := false }
  else
    let p := s.p + 0.02
    { p := p, cameraZ := startZ + (distance - startZ) * p, scheduled := true }

/-- One animation frame: the pending call of `zoom` runs, if there is one. -/
def zoomFrame (startZ distance : K) (s : ZoomState K) : ZoomState K :=
  if s.scheduled then zoom startZ distance s else s

/-- The state after `n` frames. -/
def zoomRun (startZ distance : K) : Nat → ZoomState K
  | 0 => zoomInit startZ
  | n + 1 => zoomFrame startZ distance (zoomRun startZ distance n)

/-- Line 38: `startZ = distance * 2`. -/
def startZ (distance : K) : K := distance * 2

/-! ## `App`: the light settings (lines 76-82 and 110-190) -/

/-- The four light settings held by `App`. -/
structure LightState (K : Type) where
  ambientLightIntensity : K
  directionalLightIntensity : K
  directionalLightPosition : K × K × K
  directionalLightColor : String
deriving DecidableEq, Repr

/-- The initial values of lines 77-82. -/
def LightState.initial : LightState K :=
  { ambientLightIntensity := 0.6, directionalLightIntensity := 1,
    directionalLightPosition := (5, 10, 7.5), directionalLightColor := "#ffffff" }

/-- A change event of one of the six light controls, carrying the value read from the
control (`parseFloat(e.target.value)` for the numeric ones). -/
inductive LightEvent (K : Type) where
  | ambientIntensity (v : K)
  | directionalIntensity (v : K)
  | positionX (v : K)
  | positionY (v : K)
  | positionZ (v : K)
  | color (c : String)
deriving DecidableEq, Repr

/-- The `onChange` handlers of lines 116, 132, 146, 158, 170 and 187. -/
def LightState.onChange (s : LightState K) : LightEvent K → LightState K
  | .ambientIntensity v => { s with ambientLightIntensity := v }
  | .directionalIntensity v => { s with directionalLightIntensity := v }
  | .positionX v =>
    { s with directionalLightPosition :=
        (v, s.directionalLightPosition.2.1, s.directionalLightPosition.2.2) }
  | .positionY v =>
    { s with directionalLightPosition :=
        (s.directionalLightPosition.1, v, s.directionalLightPosition.2.2) }
  | .positionZ v =>
    { s with directionalLightPosition :=
        (s.directionalLightPosition.1, s.directionalLightPosition.2.1, v) }
  | .color c => { s with directionalLightColor := c }

end Arithmetic

/-! ## `UploadedModel`: the effect and the scene group (lines 11-17 and 32-33) -/

/-- The scene group of `UploadedModel` and the decodes in flight.  A decoded root is
named by the handle it was decoded from. -/
structure SceneState where
  children : List Nat
  loading : List Nat
deriving DecidableEq, Repr

/-- The group when the component is mounted: no child, no decode in flight. -/
def SceneState.initial : SceneState := { children := [], loading := [] }

/-- The effect of lines 11-17, run when the handle changes: nothing for an empty
handle, otherwise `ref.current.clear()` followed by the start of a decode. -/
def SceneState.effect (url : Option Nat) (s : SceneState) : SceneState :=
  match url with
  | none => s
  | some u => { children := [], loading := s.loading ++ [u] }

/-- The load callback for handle `u` (line 33): `ref.current.add(scene)`.  Only a
decode in flight can complete. -/
def SceneState.onLoad (u : Nat) (s : SceneState) : SceneState :=
  if u ∈ s.loading then { children := s.children ++ [u], loading := s.loading.erase u }
  else s

/-- Events of the scene group. -/
inductive SceneEvent where
  | handleChanged (url : Option Nat)
  | decodeCompleted (url : Nat)
deriving DecidableEq, Repr

/-- One event applied to the scene group. -/
def SceneState.step (s : SceneState) : SceneEvent → SceneState
  | .handleChanged url => s.effect url
  | .decodeCompleted u => s.onLoad u

/-- The states after each event of a trace, in order. -/
def SceneState.trace (s : SceneState) : List SceneEvent → List SceneState
  | [] => []
  | e :: es => s.step e :: (s.step e).trace es

/-! ## `App`: file intake (lines 73 and 84-93) -/

/-- The state `modelUrl` and the timer callbacks registered by `setTimeout` and not
yet run, each holding the file it closes over.  The handle made by
`URL.createObjectURL(file)` is named by the file. -/
structure AppState where
  modelUrl : Option Nat
  timers : List Nat
deriving DecidableEq, Repr

/-- Line 73: `modelUrl` starts as `null`. -/
def AppState.initial : AppState := { modelUrl := none, timers := [] }

/-- `handleFileChange` (lines 84-93): with a file, `setModelUrl(null)` and a timer
callback is registered; without a file nothing happens. -/
def handleFileChange (file : Option Nat) (s : AppState) : AppState :=
  match file with
  | none => s
  | some f => { modelUrl := none, timers := s.timers ++ [f] }

/-- The oldest pending timer callback runs (lines 89-91):
`setModelUrl(URL.createObjectURL(file))`. -/
def timerCallback (s : AppState) : AppState :=
  match s.timers with
  | [] => s
  | f :: rest => { modelUrl := some f, timers := rest }

/-- Events of the file intake. -/
inductive AppEvent where
  | fileSelected (file : Option Nat)
  | timerFired
deriving DecidableEq, Repr

/-- One event applied to the application state. -/
def AppState.step (s : AppState) : AppEvent → AppState
  | .fileSelected file => handleFileChange file s
  | .timerFired => timerCallback s

/-- The transitions `(before, after)` of `modelUrl` along a trace, in order. -/
def AppState.transitions (s : AppState) : List AppEvent → List (Option Nat × Option Nat)
  | [] => []
  | e :: es => (s.modelUrl, (s.step e).modelUrl) :: (s.step e).transitions es

/-- A transition installs a new handle when the value after it is a handle that
differs from the value before it. -/
def installsNewHandle (t : Option Nat × Option Nat) : Bool :=
  t.2.isSome && t.1 != t.2

/-! ## Scale factor -/

section ScaleFactor

variable {K : Type} [LinearOrderedField K]

theorem localToWorld_decoded (g : List (Vector3 K)) (p : Vector3 K) :
    (Object3D.decoded g).localToWorld p = p := by
  cases p
  simp [Object3D.localToWorld, Object3D.decoded, Vector3.set, Vector3.setScalar]

theorem setFromObject_decoded (g : List (Vector3 K)) :
    Box3.setFromObject (Object3D.decoded g) = Box3.setFromPoints g := by
  have h : (Object3D.decoded g).geometry = g := rfl
  have hid : (Object3D.decoded g).localToWorld = id := by
    funext p
    exact localToWorld_decoded g p
  rw [Box3.setFromObject, h, hid, List.map_id]

theorem localToWorld_min (o : Object3D K) (hx : 0 ≤ o.scale.x) (hy : 0 ≤ o.scale.y)
    (hz : 0 ≤ o.scale.z) (a b : Vector3 K) :
    o.localToWorld (a.min b) = (o.localToWorld a).min (o.localToWorld b) := by
  simp [Object3D.localToWorld, Vector3.min, mul_min_of_nonneg, min_add_add_left, hx, hy, hz]

theorem localToWorld_max (o : Object3D K) (hx : 0 ≤ o.scale.x) (hy : 0 ≤ o.scale.y)
    (hz : 0 ≤ o.scale.z) (a b : Vector3 K) :
    o.localToWorld (a.max b) = (o.localToWorld a).max (o.localToWorld b) := by
  simp [Object3D.localToWorld, Vector3.max, mul_max_of_nonneg, max_add_add_left, hx, hy, hz]

theorem expandByPoint_placedBy (o : Object3D K) (hx : 0 ≤ o.scale.x) (hy : 0 ≤ o.scale.y)
    (hz : 0 ≤ o.scale.z) (b : Box3 K) (p : Vector3 K) :
    (b.placedBy o).expandByPoint (o.localToWorld p) = (b.expandByPoint p).placedBy o := by
  cases b with
  | empty => rfl
  | box mn mx =>
    simp [Box3.placedBy, Box3.expandByPoint, localToWorld_min o hx hy hz,
      localToWorld_max o hx hy hz]

theorem foldl_expandByPoint_placedBy (o : Object3D K) (hx : 0 ≤ o.scale.x)
    (hy : 0 ≤ o.scale.y) (hz : 0 ≤ o.scale.z) (ps : List (Vector3 K)) (b : Box3 K) :
    List.foldl Box3.expandByPoint (b.placedBy o) (ps.map o.localToWorld)
      = (List.foldl Box3.expandByPoint b ps).placedBy o := by
  induction ps generalizing b with
  | nil => rfl
  | cons p ps ih =>
    simp only [List.map_cons, List.foldl_cons]
    rw [expandByPoint_placedBy o hx hy hz, ih]

/-- The world-space bounding box of an object with non-negative scale is the image of
the bounding box of its geometry. -/
theorem setFromObject_eq_placedBy (o : Object3D K) (hx : 0 ≤ o.scale.x)
    (hy : 0 ≤ o.scale.y) (hz : 0 ≤ o.scale.z) :
    Box3.setFromObject o = (Box3.setFromPoints o.geometry).placedBy o := by
  have h := foldl_expandByPoint_placedBy o hx hy hz o.geometry Box3.empty
  simpa [Box3.setFromObject, Box3.setFromPoints, Box3.placedBy] using h

theorem jsDiv_of_ne_zero (a : K) {b : K} (hb : b ≠ 0) : jsDiv a b = some (a / b) := by
  simp [jsDiv, hb]

theorem jsDiv_zero (a : K) : jsDiv a 0 = none := by
  simp [jsDiv]

theorem scaleFactor_of_pos {size : Vector3 K} (hpos : 0 < maxDim size) :
    scaleFactor size = some (2 / maxDim size) := by
  simp [scaleFactor, maxSize, jsDiv_of_ne_zero _ hpos.ne.symm]

theorem normalize_of_pos (scene : Object3D K)
    (hpos : 0 < maxDim (Box3.setFromObject scene).getSize) :
    normalize scene = some
      { scene with
        position := scene.position.sub (Box3.setFromObject scene).getCenter
        scale := Vector3.setScalar (2 / maxDim (Box3.setFromObject scene).getSize) } := by
  simp [normalize, scaleFactor_of_pos hpos]

/-- C2: for every bounding-box size whose longest dimension is positive, the scale
factor of `UploadedModel` is `2 / max(sx, sy, sz)`, the normalised root carries it on
all three axes, and the longest dimension of the scaled size is exactly the target
size 2.  (Non-negativity of the components is not needed.) -/
theorem scaleFactor_uniform_to_target (size : Vector3 K) (hpos : 0 < maxDim size) :
    scaleFactor size = some (2 / maxDim size) ∧
    (∀ scene : Object3D K, (Box3.setFromObject scene).getSize = size →
      ∃ o, normalize scene = some o ∧
        o.scale.x = 2 / maxDim size ∧ o.scale.y = 2 / maxDim size ∧
        o.scale.z = 2 / maxDim size) ∧
    Max.max (Max.max (2 / maxDim size * size.x) (2 / maxDim size * size.y))
      (2 / maxDim size * size.z) = 2 := by
  refine ⟨scaleFactor_of_pos hpos, ?_, ?_⟩
  · intro scene hsize
    subst hsize
    exact ⟨_, normalize_of_pos scene hpos, rfl, rfl, rfl⟩
  · have hf : (0 : K) ≤ 2 / maxDim size := by positivity
    rw [← mul_max_of_nonneg _ _ hf, ← mul_max_of_nonneg _ _ hf]
    have h : Max.max (Max.max size.x size.y) size.z = maxDim size := rfl
    rw [h]
    field_simp

/-- C2, evaluated: size (10,2,2) gives the factor 1/5 and size (2,2,2) the factor 1. -/
theorem scaleFactor_uniform_to_target_witness :
    (0 : ℚ) < maxDim (⟨10, 2, 2⟩ : Vector3 ℚ) ∧
    scaleFactor (⟨10, 2, 2⟩ : Vector3 ℚ) = some (1 / 5) ∧
    scaleFactor (⟨2, 2, 2⟩ : Vector3 ℚ) = some 1 ∧
    Max.max (Max.max (1 / 5 * (10 : ℚ)) (1 / 5 * 2)) (1 / 5 * 2) = 2 := by
  have h10 : maxDim (⟨10, 2, 2⟩ : Vector3 ℚ) = 10 := by norm_num [maxDim]
  have h2 : maxDim (⟨2, 2, 2⟩ : Vector3 ℚ) = 2 := by norm_num [maxDim]
  have a := scaleFactor_uniform_to_target (⟨10, 2, 2⟩ : Vector3 ℚ) (by norm_num [h10])
  have b := scaleFactor_uniform_to_target (⟨2, 2, 2⟩ : Vector3 ℚ) (by norm_num [h2])
  refine ⟨by norm_num [h10], ?_, ?_, ?_⟩
  · rw [a.1, h10]; norm_num
  · rw [b.1, h2]; norm_num
  · norm_num

/-- C8: the divisor of the scale computation is not guarded.  For the degenerate size
(0,0,0) the divisor is zero and there is no finite scale factor, and an asset made of
a single point reaches that case; for every size whose longest dimension is positive
the divisor is not zero and the scale factor is a positive finite number. -/
theorem scaleFactor_division_unguarded (size : Vector3 K) (hpos : 0 < maxDim size) :
    maxDim (Vector3.set 0 0 0 : Vector3 K) = 0 ∧
    scaleFactor (Vector3.set 0 0 0 : Vector3 K) = none ∧
    (∀ p : Vector3 K, normalize (Object3D.decoded [p]) = none) ∧
    maxDim size ≠ 0 ∧
    ∃ f, scaleFactor size = some f ∧ 0 < f := by
  have h0 : maxDim (Vector3.set 0 0 0 : Vector3 K) = 0 := by
    simp [maxDim, Vector3.set]
  refine ⟨h0, ?_, ?_, hpos.ne.symm, 2 / maxDim size, scaleFactor_of_pos hpos, by positivity⟩
  · rw [scaleFactor, h0, jsDiv_zero]
  · intro p
    have hs : (Box3.setFromObject (Object3D.decoded [p])).getSize
        = (Vector3.set 0 0 0 : Vector3 K) := by
      rw [setFromObject_decoded]
      simp [Box3.setFromPoints, Box3.expandByPoint, Box3.getSize, Box3.isEmpty,
        Vector3.subVectors, Vector3.set]
    simp only [normalize, hs, scaleFactor, h0, jsDiv_zero, Option.map_none']

/-- C8, evaluated at size (3,4,1): the divisor is 4 and the factor is 1/2. -/
theorem scaleFactor_division_unguarded_witness :
    (0 : ℚ) < maxDim (⟨3, 4, 1⟩ : Vector3 ℚ) ∧
    scaleFactor (Vector3.set 0 0 0 : Vector3 ℚ) = none ∧
    ∃ f, scaleFactor (⟨3, 4, 1⟩ : Vector3 ℚ) = some f ∧ 0 < f := by
  have h : (0 : ℚ) < maxDim (⟨3, 4, 1⟩ : Vector3 ℚ) := by norm_num [maxDim]
  have a := scaleFactor_division_unguarded (⟨3, 4, 1⟩ : Vector3 ℚ) h
  exact ⟨h, a.2.1, a.2.2.2.2⟩

end ScaleFactor

/-! ## Centre of the normalised model -/

section Centre

variable {K : Type} [LinearOrderedField K]

theorem isEmpty_eq_false_iff (mn mx : Vector3 K) :
    (Box3.box mn mx).isEmpty = false ↔ mn.x ≤ mx.x ∧ mn.y ≤ mx.y ∧ mn.z ≤ mx.z := by
  simp [Box3.isEmpty, and_assoc]

theorem maxDim_getSize_of_isEmpty {b : Box3 K} (h : b.isEmpty = true) :
    maxDim b.getSize = 0 := by
  cases b with
  | empty => simp [Box3.getSize, maxDim, Vector3.set]
  | box mn mx => simp [Box3.getSize, h, maxDim, Vector3.set]

theorem isEmpty_eq_false_of_pos {b : Box3 K} (hpos : 0 < maxDim b.getSize) :
    b.isEmpty = false := by
  cases hb : b.isEmpty with
  | false => rfl
  | true => rw [maxDim_getSize_of_isEmpty hb] at hpos; exact absurd hpos (lt_irrefl 0)

/-- The placed box of a non-empty box under a root at position `-centre` with the
uniform scale `f > 0` has its centre at `(f - 1) * centre`. -/
theorem getCenter_placedBy (mn mx : Vector3 K) (hne : (Box3.box mn mx).isEmpty = false)
    (f : K) (hf : 0 < f) (g : List (Vector3 K)) :
    ((Box3.box mn mx).placedBy
        { position := (Vector3.set 0 0 0).sub (Box3.box mn mx).getCenter
          scale := Vector3.setScalar f
          geometry := g }).getCenter
      = (Box3.box mn mx).getCenter.multiplyScalar (f - 1) := by
  have h := (isEmpty_eq_false_iff mn mx).1 hne
  have hx : mn.x * f ≤ mx.x * f := mul_le_mul_of_nonneg_right h.1 hf.le
  have hy : mn.y * f ≤ mx.y * f := mul_le_mul_of_nonneg_right h.2.1 hf.le
  have hz : mn.z * f ≤ mx.z * f := mul_le_mul_of_nonneg_right h.2.2 hf.le
  have hne2 : (Box3.box
      (Object3D.localToWorld
        { position := (Vector3.set 0 0 0).sub (Box3.box mn mx).getCenter
          scale := Vector3.setScalar f
          geometry := g } mn)
      (Object3D.localToWorld
        { position := (Vector3.set 0 0 0).sub (Box3.box mn mx).getCenter
          scale := Vector3.setScalar f
          geometry := g } mx)).isEmpty = false := by
    rw [isEmpty_eq_false_iff]
    simp only [Object3D.localToWorld, Vector3.setScalar, add_le_add_iff_left]
    exact ⟨by linarith [mul_comm f mn.x, mul_comm f mx.x],
      by linarith [mul_comm f mn.y, mul_comm f mx.y],
      by linarith [mul_comm f mn.z, mul_comm f mx.z]⟩
  rw [Box3.placedBy, Box3.getCenter, hne2, Box3.getCenter, hne]
  simp only [Bool.false_eq_true, if_false, Object3D.localToWorld, Vector3.setScalar,
    Vector3.set, Vector3.sub, Vector3.addVectors, Vector3.multiplyScalar, Vector3.mk.injEq]
  exact ⟨by ring, by ring, by ring⟩

theorem multiplyScalar_eq_zero_iff (c : Vector3 K) (t : K) :
    c.multiplyScalar t = Vector3.set 0 0 0 ↔ c = Vector3.set 0 0 0 ∨ t = 0 := by
  cases c with
  | mk x y z =>
    simp only [Vector3.multiplyScalar, Vector3.set, Vector3.mk.injEq, mul_eq_zero]
    by_cases ht : t = 0
    · simp [ht]
    · simp [ht]

/-- The world-space bounding box of the normalised root of a decoded asset, in terms
of the bounding box `box mn mx` of its geometry. -/
theorem normalized_center (g : List (Vector3 K)) (mn mx : Vector3 K)
    (hB : Box3.setFromPoints g = Box3.box mn mx)
    (hne : (Box3.box mn mx).isEmpty = false) (f : K) (hf : 0 < f) :
    (Box3.setFromObject
        { position := (Vector3.set 0 0 0).sub (Box3.box mn mx).getCenter
          scale := Vector3.setScalar f
          geometry := g }).getCenter
      = (Box3.box mn mx).getCenter.multiplyScalar (f - 1) := by
  rw [setFromObject_eq_placedBy _ hf.le hf.le hf.le]
  simp only [hB]
  exact getCenter_placedBy mn mx hne f hf g

/-- C10: for a decoded asset whose root starts with the identity transform and whose
bounding box has centre `c` and positive longest dimension `maxDim`, the load callback
subtracts the unscaled centre from the position and scales by `f = 2 / maxDim`; the
world-space bounding-box centre of the normalised model is `(f - 1) * c`, and it is the
origin exactly when `c = (0,0,0)` or `maxDim = 2`. -/
theorem normalize_center_offset (g : List (Vector3 K))
    (hpos : 0 < maxDim (Box3.setFromObject (Object3D.decoded g)).getSize) :
    ∃ o, normalize (Object3D.decoded g) = some o ∧
      o.position = (Vector3.set 0 0 0).sub (Box3.setFromObject (Object3D.decoded g)).getCenter ∧
      o.scale = Vector3.setScalar
        (2 / maxDim (Box3.setFromObject (Object3D.decoded g)).getSize) ∧
      (Box3.setFromObject o).getCenter
        = (Box3.setFromObject (Object3D.decoded g)).getCenter.multiplyScalar
            (2 / maxDim (Box3.setFromObject (Object3D.decoded g)).getSize - 1) ∧
      ((Box3.setFromObject o).getCenter = Vector3.set 0 0 0 ↔
        (Box3.setFromObject (Object3D.decoded g)).getCenter = Vector3.set 0 0 0 ∨
        maxDim (Box3.setFromObject (Object3D.decoded g)).getSize = 2) := by
  have hnorm := normalize_of_pos (Object3D.decoded g) hpos
  have hne := isEmpty_eq_false_of_pos hpos
  have hf : (0 : K) < 2 / maxDim (Box3.setFromObject (Object3D.decoded g)).getSize := by
    positivity
  rw [setFromObject_decoded] at hnorm hne hf hpos ⊢
  cases hB : Box3.setFromPoints g with
  | empty => rw [hB] at hne; exact absurd hne (by simp [Box3.isEmpty])
  | box mn mx =>
    rw [hB] at hnorm hne hf hpos
    have hc := normalized_center g mn mx hB hne _ hf
    refine ⟨_, hnorm, rfl, rfl, hc, ?_⟩
    have hiff := multiplyScalar_eq_zero_iff (Box3.box mn mx).getCenter
      (2 / maxDim (Box3.box mn mx).getSize - 1)
    have hm : 2 / maxDim (Box3.box mn mx).getSize - 1 = 0 ↔
        maxDim (Box3.box mn mx).getSize = 2 := by
      rw [sub_eq_zero, div_eq_one_iff_eq hpos.ne.symm]
      exact eq_comm
    rw [hm] at hiff
    exact hc ▸ hiff

/-- C10, evaluated: the asset with the points (1,1,1) and (3,5,2) has centre
(2,3,3/2) and longest dimension 4; its normalised model is centred at (-1,-3/2,-3/4). -/
theorem normalize_center_offset_witness :
    (0 : ℚ) < maxDim (Box3.setFromObject
      (Object3D.decoded [(⟨1, 1, 1⟩ : Vector3 ℚ), ⟨3, 5, 2⟩])).getSize ∧
    ∃ o, normalize (Object3D.decoded [(⟨1, 1, 1⟩ : Vector3 ℚ), ⟨3, 5, 2⟩]) = some o ∧
      (Box3.setFromObject o).getCenter = ⟨-1, -3 / 2, -3 / 4⟩ := by
  have hB : Box3.setFromObject (Object3D.decoded [(⟨1, 1, 1⟩ : Vector3 ℚ), ⟨3, 5, 2⟩])
      = Box3.box ⟨1, 1, 1⟩ ⟨3, 5, 2⟩ := by
    rw [setFromObject_decoded]
    norm_num [Box3.setFromPoints, Box3.expandByPoint, Vector3.min, Vector3.max]
  have hsize : (Box3.box (⟨1, 1, 1⟩ : Vector3 ℚ) ⟨3, 5, 2⟩).getSize = ⟨2, 4, 1⟩ := by
    norm_num [Box3.getSize, Box3.isEmpty, Vector3.subVectors]
  have hcen : (Box3.box (⟨1, 1, 1⟩ : Vector3 ℚ) ⟨3, 5, 2⟩).getCenter = ⟨2, 3, 3 / 2⟩ := by
    norm_num [Box3.getCenter, Box3.isEmpty, Vector3.addVectors, Vector3.multiplyScalar]
  have hmax : maxDim (⟨2, 4, 1⟩ : Vector3 ℚ) = 4 := by norm_num [maxDim]
  have hpos : (0 : ℚ) < maxDim (Box3.setFromObject
      (Object3D.decoded [(⟨1, 1, 1⟩ : Vector3 ℚ), ⟨3, 5, 2⟩])).getSize := by
    rw [hB, hsize, hmax]; norm_num
  obtain ⟨o, ho, _, _, hc, _⟩ :=
    normalize_center_offset [(⟨1, 1, 1⟩ : Vector3 ℚ), ⟨3, 5, 2⟩] hpos
  refine ⟨hpos, o, ho, ?_⟩
  rw [hc, hB, hsize, hcen, hmax]
  norm_num [Vector3.multiplyScalar]

/-- C1 at the asset with the points (0,0,0) and (4,2,2): the bounding box has centre
(2,1,1) and longest dimension 4, the load callback gives the root the position
(-2,-1,-1) and the scale 1/2, and the world-space bounding box of the normalised model
is [-2,0] x [-1,0] x [-1,0] with centre (-1,-1/2,-1/2), which is not the origin. -/
theorem normalize_center_not_origin :
    normalize (Object3D.decoded [(⟨0, 0, 0⟩ : Vector3 ℚ), ⟨4, 2, 2⟩])
      = some { position := ⟨-2, -1, -1⟩, scale := ⟨1 / 2, 1 / 2, 1 / 2⟩,
               geometry := [⟨0, 0, 0⟩, ⟨4, 2, 2⟩] } ∧
    Box3.setFromObject
        ({ position := ⟨-2, -1, -1⟩, scale := ⟨1 / 2, 1 / 2, 1 / 2⟩,
           geometry := [⟨0, 0, 0⟩, ⟨4, 2, 2⟩] } : Object3D ℚ)
      = Box3.box ⟨-2, -1, -1⟩ ⟨0, 0, 0⟩ ∧
    (Box3.box (⟨-2, -1, -1⟩ : Vector3 ℚ) ⟨0, 0, 0⟩).getCenter = ⟨-1, -1 / 2, -1 / 2⟩ ∧
    (Box3.box (⟨-2, -1, -1⟩ : Vector3 ℚ) ⟨0, 0, 0⟩).getCenter ≠ Vector3.set 0 0 0 := by
  have hB : Box3.setFromObject (Object3D.decoded [(⟨0, 0, 0⟩ : Vector3 ℚ), ⟨4, 2, 2⟩])
      = Box3.box ⟨0, 0, 0⟩ ⟨4, 2, 2⟩ := by
    rw [setFromObject_decoded]
    norm_num [Box3.setFromPoints, Box3.expandByPoint, Vector3.min, Vector3.max]
  have hcen : (Box3.box (⟨-2, -1, -1⟩ : Vector3 ℚ) ⟨0, 0, 0⟩).getCenter
      = ⟨-1, -1 / 2, -1 / 2⟩ := by
    norm_num [Box3.getCenter, Box3.isEmpty, Vector3.addVectors, Vector3.multiplyScalar]
  refine ⟨?_, ?_, hcen, ?_⟩
  · rw [normalize, hB]
    norm_num [Box3.getSize, Box3.getCenter, Box3.isEmpty, Vector3.subVectors,
      Vector3.addVectors, Vector3.multiplyScalar, scaleFactor, maxDim, maxSize, jsDiv,
      Object3D.decoded, Vector3.set, Vector3.sub, Vector3.setScalar]
  · norm_num [Box3.setFromObject, Box3.setFromPoints, Box3.expandByPoint,
      Object3D.localToWorld, Vector3.min, Vector3.max]
  · rw [hcen]
    norm_num [Vector3.set]

end Centre

/-! ## Zoom animation -/

section Zoom

variable {K : Type} [LinearOrderedField K]

/-- During the first 50 frames every frame runs `zoom` and adds 0.02 to `p`. -/
theorem zoomRun_of_le (s d : K) (k : ℕ) (hk : k ≤ 50) :
    zoomRun s d k
      = { p := (k : K) / 50, cameraZ := s + (d - s) * ((k : K) / 50), scheduled := true } := by
  induction k with
  | zero => simp [zoomRun, zoomInit]
  | succ k ih =>
    have hk2 : k ≤ 50 := Nat.le_of_succ_le hk
    have hlt : (k : K) < 50 := by exact_mod_cast Nat.lt_of_succ_le hk
    have hp : ¬ ((k : K) / 50 ≥ 1) := by
      rw [ge_iff_le, not_le, div_lt_one (by norm_num)]
      exact hlt
    have hstep : (k : K) / 50 + 0.02 = ((k + 1 : ℕ) : K) / 50 := by
      push_cast
      norm_num
      ring
    rw [zoomRun, ih hk2]
    simp only [zoomFrame, zoom, if_true, hp, if_false, hstep]

/-- The 51st call of `zoom` finds `p = 1` and returns without scheduling a frame;
nothing changes afterwards. -/
theorem zoomRun_of_gt (s d : K) (m : ℕ) :
    zoomRun s d (51 + m) = { p := 1, cameraZ := s + (d - s) * 1, scheduled := false } := by
  induction m with
  | zero =>
    have h50 := zoomRun_of_le s d 50 (le_refl 50)
    have h1 : ((50 : ℕ) : K) / 50 = 1 := by norm_num
    rw [h1] at h50
    show zoomFrame s d (zoomRun s d 50) = _
    rw [h50]
    simp [zoomFrame, zoom]
  | succ m ih =>
    show zoomFrame s d (zoomRun s d (51 + m)) = _
    rw [ih]
    simp [zoomFrame]

/-- The parameter after `n` frames is `min n 50 / 50`. -/
theorem zoomRun_p (s d : K) (n : ℕ) : (zoomRun s d n).p = ((min n 50 : ℕ) : K) / 50 := by
  rcases Nat.lt_or_ge n 51 with h | h
  · have hn : n ≤ 50 := Nat.le_of_lt_succ h
    rw [zoomRun_of_le s d n hn, Nat.min_eq_left hn]
  · obtain ⟨m, rfl⟩ := Nat.exists_eq_add_of_le h
    rw [zoomRun_of_gt, Nat.min_eq_right (by omega)]
    norm_num

/-- C4: for every start and target distance the interpolation parameter starts at 0,
grows by 0.02 in each frame in which it is below 1 and is unchanged otherwise, so it
never decreases; after `n` frames it is `min n 50 / 50` whatever the distances are;
the 50th frame brings it to 1, and from the 51st frame on the animation has stopped:
`p >= 1`, no frame is scheduled and the state no longer changes. -/
theorem zoom_parameter_monotone_and_stops (s d : K) (n : ℕ) :
    (zoomRun s d 0).p = 0 ∧
    (zoomRun s d (n + 1)).p
      = (if (zoomRun s d n).p < 1 then (zoomRun s d n).p + 0.02 else (zoomRun s d n).p) ∧
    (zoomRun s d n).p ≤ (zoomRun s d (n + 1)).p ∧
    (zoomRun s d n).p = ((min n 50 : ℕ) : K) / 50 ∧
    ((zoomRun s d 50).p = 1 ∧ (zoomRun s d 50).scheduled = true) ∧
    (1 ≤ (zoomRun s d (51 + n)).p ∧ (zoomRun s d (51 + n)).scheduled = false) ∧
    zoomRun s d (51 + n) = zoomRun s d 51 := by
  have hmono : (zoomRun s d n).p ≤ (zoomRun s d (n + 1)).p := by
    rw [zoomRun_p, zoomRun_p]
    apply div_le_div_of_nonneg_right _ (by norm_num : (0 : K) ≤ 50)
    exact_mod_cast min_le_min_right 50 (Nat.le_succ n)
  have hstep : (zoomRun s d (n + 1)).p
      = (if (zoomRun s d n).p < 1 then (zoomRun s d n).p + 0.02 else (zoomRun s d n).p) := by
    rcases Nat.lt_or_ge n 50 with h | h
    · have hlt : (n : K) < 50 := by exact_mod_cast h
      have hp : (n : K) / 50 < 1 := by
        rw [div_lt_one (by norm_num)]
        exact hlt
      rw [zoomRun_of_le s d (n + 1) h, zoomRun_of_le s d n h.le]
      simp only [hp, if_true]
      push_cast
      norm_num
      ring
    · have h1 : (zoomRun s d n).p = 1 := by
        rw [zoomRun_p, Nat.min_eq_right h]
        norm_num
      have h2 : (zoomRun s d (n + 1)).p = 1 := by
        rw [zoomRun_p, Nat.min_eq_right (Nat.le_succ_of_le h)]
        norm_num
      rw [h1, h2]
      simp
  have h50 := zoomRun_of_le s d 50 (le_refl 50)
  refine ⟨rfl, hstep, hmono, zoomRun_p s d n, ?_, ?_, ?_⟩
  · rw [h50]
    exact ⟨by norm_num, rfl⟩
  · rw [zoomRun_of_gt]
    exact ⟨le_refl 1, rfl⟩
  · rw [zoomRun_of_gt, zoomRun_of_gt s d 0]

/-- C7: for every target distance `d > 0` the camera starts at `z = 2 d`; after frame
`k` (1 to 50) it is at `2 d + (d - 2 d) (k / 50)`; each frame moves it by the same
amount `d / 50` towards the target, so `z` strictly decreases and stays in `[d, 2 d]`;
after frame 50 and ever after `z` is exactly `d`. -/
theorem zoom_camera_linear (d : K) (hd : 0 < d) (k : ℕ) (hk1 : 1 ≤ k) (hk : k ≤ 50) (m : ℕ) :
    startZ d = 2 * d ∧
    (zoomRun (startZ d) d 0).cameraZ = 2 * d ∧
    (zoomRun (startZ d) d k).cameraZ = 2 * d + (d - 2 * d) * ((k : K) / 50) ∧
    (zoomRun (startZ d) d k).cameraZ - (zoomRun (startZ d) d (k - 1)).cameraZ = -(d / 50) ∧
    (zoomRun (startZ d) d k).cameraZ < (zoomRun (startZ d) d (k - 1)).cameraZ ∧
    (d ≤ (zoomRun (startZ d) d k).cameraZ ∧ (zoomRun (startZ d) d k).cameraZ ≤ 2 * d) ∧
    ((zoomRun (startZ d) d 50).p = 1 ∧ (zoomRun (startZ d) d 50).cameraZ = d) ∧
    ((zoomRun (startZ d) d (51 + m)).scheduled = false ∧
      (zoomRun (startZ d) d (51 + m)).cameraZ = d) := by
  have hs : startZ d = 2 * d := by rw [startZ, mul_comm]
  obtain ⟨j, rfl⟩ : ∃ j, k = j + 1 := ⟨k - 1, by omega⟩
  have hj : j ≤ 50 := by omega
  have hkK : ((j + 1 : ℕ) : K) ≤ 50 := by exact_mod_cast hk
  have e0 : (zoomRun (2 * d) d 0).cameraZ = 2 * d := rfl
  have ek : (zoomRun (2 * d) d (j + 1)).cameraZ
      = 2 * d + (d - 2 * d) * (((j + 1 : ℕ) : K) / 50) := by
    rw [zoomRun_of_le _ _ _ hk]
  have ej : (zoomRun (2 * d) d j).cameraZ = 2 * d + (d - 2 * d) * ((j : K) / 50) := by
    rw [zoomRun_of_le _ _ _ hj]
  have e50 : zoomRun (2 * d) d 50
      = { p := ((50 : ℕ) : K) / 50, cameraZ := 2 * d + (d - 2 * d) * (((50 : ℕ) : K) / 50),
          scheduled := true } := zoomRun_of_le _ _ 50 (le_refl 50)
  have hdiff : (zoomRun (2 * d) d (j + 1)).cameraZ - (zoomRun (2 * d) d j).cameraZ
      = -(d / 50) := by
    rw [ek, ej]
    push_cast
    ring
  rw [hs, Nat.add_sub_cancel]
  refine ⟨rfl, e0, ek, hdiff, ?_, ⟨?_, ?_⟩, ⟨?_, ?_⟩, ?_⟩
  · have : (0 : K) < d / 50 := by positivity
    linarith
  · rw [ek]
    have h : d * (((j + 1 : ℕ) : K) / 50) ≤ d * 1 :=
      mul_le_mul_of_nonneg_left ((div_le_one (by norm_num)).2 hkK) hd.le
    linarith
  · rw [ek]
    have h : 0 ≤ d * (((j + 1 : ℕ) : K) / 50) := by positivity
    linarith
  · rw [e50]
    norm_num
  · rw [e50]
    norm_num
  · rw [zoomRun_of_gt]
    exact ⟨rfl, by ring⟩

/-- C7, evaluated at the target distance 7/5 and frame 25: the camera starts at 14/5,
is at 21/10 after frame 25 and at 7/5 after frame 50. -/
theorem zoom_camera_linear_witness :
    (0 : ℚ) < 7 / 5 ∧
    (zoomRun (startZ (7 / 5 : ℚ)) (7 / 5) 0).cameraZ = 14 / 5 ∧
    (zoomRun (startZ (7 / 5 : ℚ)) (7 / 5) 25).cameraZ = 21 / 10 ∧
    (zoomRun (startZ (7 / 5 : ℚ)) (7 / 5) 50).cameraZ = 7 / 5 := by
  have h := zoom_camera_linear (7 / 5 : ℚ) (by norm_num) 25 (by norm_num) (by norm_num) 0
  refine ⟨by norm_num, ?_, ?_, ?_⟩
  · rw [h.2.1]; norm_num
  · rw [h.2.2.1]; norm_num
  · rw [h.2.2.2.2.2.2.1.2]

end Zoom

/-! ## Camera distance -/

/-- C5: for every vertical field of view strictly between 0 and 180 degrees the
tangent of the half-angle is positive, so the division of line 37 has a non-zero
divisor and the target camera distance `((2 / 2) / tan(fov * pi / 360)) * 1.4` is a
finite, strictly positive number. -/
theorem cameraDistance_pos (fov : ℝ) (h0 : 0 < fov) (h180 : fov < 180) :
    0 < Real.tan (fov * (Real.pi / 180) / 2) ∧
    ∃ dist : ℝ, cameraDistance Real.tan Real.pi fov = some dist ∧
      dist = (2 / 2 / Real.tan (fov * Real.pi / 360)) * 1.4 ∧ 0 < dist := by
  have hpi := Real.pi_pos
  have hlo : 0 < fov * (Real.pi / 180) / 2 := by positivity
  have hhi : fov * (Real.pi / 180) / 2 < Real.pi / 2 := by
    have : fov * Real.pi < 180 * Real.pi := mul_lt_mul_of_pos_right h180 hpi
    linarith
  have htan := Real.tan_pos_of_pos_of_lt_pi_div_two hlo hhi
  have hang : fov * Real.pi / 360 = fov * (Real.pi / 180) / 2 := by ring
  refine ⟨htan, (2 / 2 / Real.tan (fov * Real.pi / 360)) * 1.4, ?_, rfl, ?_⟩
  · simp only [cameraDistance, maxSize, jsDiv_of_ne_zero _ htan.ne.symm, Option.map_some', hang]
  · rw [hang]
    positivity

/-- C5, at the field of view 40 degrees of the canvas camera (line 194). -/
theorem cameraDistance_pos_witness :
    (0 : ℝ) < 40 ∧ (40 : ℝ) < 180 ∧
    ∃ dist : ℝ, cameraDistance Real.tan Real.pi 40 = some dist ∧ 0 < dist := by
  obtain ⟨_, dist, h, _, hpos⟩ := cameraDistance_pos 40 (by norm_num) (by norm_num)
  exact ⟨by norm_num, by norm_num, dist, h, hpos⟩

/-! ## Light settings -/

/-- C9: for every light state and every value, each setter event stores exactly the
value in its field (ambient intensity, directional intensity, one component of the
directional position, directional colour) and leaves every other field, the other two
position components included, unchanged; setting the ambient intensity to 1.23 reads
back 1.23. -/
theorem light_setter_roundtrip {K : Type} [LinearOrderedField K] (s : LightState K) (v : K)
    (c : String) :
    s.onChange (.ambientIntensity v) = { s with ambientLightIntensity := v } ∧
    (s.onChange (.ambientIntensity v)).ambientLightIntensity = v ∧
    (s.onChange (.ambientIntensity 1.23)).ambientLightIntensity = 1.23 ∧
    s.onChange (.directionalIntensity v) = { s with directionalLightIntensity := v } ∧
    (s.onChange (.directionalIntensity v)).directionalLightIntensity = v ∧
    ((s.onChange (.positionX v)).directionalLightPosition
        = (v, s.directionalLightPosition.2.1, s.directionalLightPosition.2.2) ∧
      (s.onChange (.positionX v)).ambientLightIntensity = s.ambientLightIntensity ∧
      (s.onChange (.positionX v)).directionalLightIntensity = s.directionalLightIntensity ∧
      (s.onChange (.positionX v)).directionalLightColor = s.directionalLightColor) ∧
    ((s.onChange (.positionY v)).directionalLightPosition
        = (s.directionalLightPosition.1, v, s.directionalLightPosition.2.2) ∧
      (s.onChange (.positionY v)).ambientLightIntensity = s.ambientLightIntensity ∧
      (s.onChange (.positionY v)).directionalLightIntensity = s.directionalLightIntensity ∧
      (s.onChange (.positionY v)).directionalLightColor = s.directionalLightColor) ∧
    ((s.onChange (.positionZ v)).directionalLightPosition
        = (s.directionalLightPosition.1, s.directionalLightPosition.2.1, v) ∧
      (s.onChange (.positionZ v)).ambientLightIntensity = s.ambientLightIntensity ∧
      (s.onChange (.positionZ v)).directionalLightIntensity = s.directionalLightIntensity ∧
      (s.onChange (.positionZ v)).directionalLightColor = s.directionalLightColor) ∧
    s.onChange (.color c) = { s with directionalLightColor := c } ∧
    (s.onChange (.color c)).directionalLightColor = c :=
  ⟨rfl, rfl, rfl, rfl, rfl, ⟨rfl, rfl, rfl, rfl⟩, ⟨rfl, rfl, rfl, rfl⟩, ⟨rfl, rfl, rfl, rfl⟩,
    rfl, rfl⟩

/-! ## Scene group and file intake -/

/-- C3 at the trace "handle 1 installed, handle 2 installed, decode of 1 completes,
decode of 2 completes": each installation clears the group, but the decode of handle 1
is still in flight when handle 2 is installed, and both roots end up attached. -/
theorem scene_two_models_attached :
    SceneState.initial.trace
        [.handleChanged (some 1), .handleChanged (some 2), .decodeCompleted 1,
          .decodeCompleted 2]
      = [{ children := [], loading := [1] }, { children := [], loading := [1, 2] },
         { children := [1], loading := [2] }, { children := [1, 2], loading := [] }] ∧
    ¬ ∀ (es : List SceneEvent) (s : SceneState),
        s ∈ SceneState.initial.trace es → s.children.length ≤ 1 := by
  refine ⟨by decide, fun h => ?_⟩
  have h2 := h [.handleChanged (some 1), .handleChanged (some 2), .decodeCompleted 1,
    .decodeCompleted 2] { children := [1, 2], loading := [] } (by decide)
  exact absurd h2 (by decide)

/-- C6 at the trace "file 1 selected, file 2 selected, timer fires, timer fires": the
second timer callback installs the handle of file 2 while `modelUrl` still holds the
handle of file 1. -/
theorem modelUrl_replaced_without_null :
    AppState.initial.transitions
        [.fileSelected (some 1), .fileSelected (some 2), .timerFired, .timerFired]
      = [(none, none), (none, none), (none, some 1), (some 1, some 2)] ∧
    installsNewHandle (some 1, some 2) = true ∧
    ¬ ∀ (es : List AppEvent) (t : Option Nat × Option Nat),
        t ∈ AppState.initial.transitions es → installsNewHandle t = true → t.1 = none := by
  refine ⟨by decide, by decide, fun h => ?_⟩
  have h2 := h [.fileSelected (some 1), .fileSelected (some 2), .timerFired, .timerFired]
    (some 1, some 2) (by decide) (by decide)
  exact absurd h2 (by decide)

end ModelViewer
